import Mathlib

/-
Verification of the entry-resolution and launch pipeline of dmenu-desktop
(src/main.rs).  The Rust code is shallowly embedded: pure fragments become
Lean functions on List Char / String; the filesystem, the environment and
the decoded ini file (external collaborators) are passed in explicitly as
parameters (a predicate for path existence, an Option String per variable,
an association list for the decoded "Desktop Entry" section).  Rust string
primitives used by the code (split, replace, contains, trim, to_lowercase,
Path::join, env::split_paths) are modelled by structurally recursive
functions over character lists with the same (ASCII-level) semantics, so
that every definition evaluates inside the kernel.
-/

namespace DmenuDesktop

/-- Field-selection mode, src/main.rs lines 9-14 (EntryType). -/
inductive EntryType
  | name
  | command
  | filename
  deriving DecidableEq

/-- One resolved launcher entry, src/main.rs lines 39-47 (struct DesktopEntry). -/
structure DesktopEntry where
  name : String
  filename : String
  exec : String
  hide : Bool
  terminal : Bool
  path : Option String
  deriving DecidableEq

/-- Lookup in a decoded ini section (rust-ini Properties::get): first value
stored under the key. -/
def sget (sec : List (String × String)) (k : String) : Option String :=
  (sec.find? (fun p => p.1 == k)).map (fun p => p.2)

/-- Split a character list at every occurrence of a separator character,
keeping empty pieces; the empty input yields one empty piece.  This is the
semantics of Rust str::split with a one-character pattern: the iterator is
never empty. -/
def splitChars (sep : Char) : List Char → List (List Char)
  | [] => [[]]
  | c :: cs =>
    if c == sep then [] :: splitChars sep cs
    else
      match splitChars sep cs with
      | [] => [[c]]
      | w :: ws => (c :: w) :: ws

/-- Rust std::env::split_paths: split a PATH-like value on the colon
separator. -/
def splitPaths (s : String) : List String :=
  (splitChars ':' s.data).map String.mk

/-- Rust PathBuf::join on Unix: an absolute right operand replaces the left
one; otherwise the operands are joined, inserting a separator unless the
left operand is empty or already ends in one. -/
def joinPath (dir f : String) : String :=
  if f.data.head? = some '/' then f
  else if dir.data = [] then f
  else if dir.data.getLast? = some '/' then dir ++ f
  else dir ++ "/" ++ f

/-- exists_on_path, src/main.rs lines 93-105: when the PATH-like variable is
set, test each of its directories joined with the argument (the whole
argument, as PathBuf::join does) against the filesystem-existence oracle fs;
an unset variable yields false. -/
def exists_on_path (fs : String → Bool) (pathVar : Option String) (exec : String) : Bool :=
  match pathVar with
  | none => false
  | some pv => (splitPaths pv).any (fun dir => fs (joinPath dir exec))

/-- DesktopEntry::from_ini, src/main.rs lines 50-83.  The decoded file is
passed as the (optional) "Desktop Entry" section; fs is the filesystem
existence oracle and pathVar the PATH variable used by exists_on_path. -/
def from_ini (fs : String → Bool) (pathVar : Option String) (filename : String)
    (ini : Option (List (String × String))) : Option DesktopEntry :=
  match ini with
  | none => none
  | some sec =>
    if sget sec "Type" ≠ some "Application" then none
    else
      match sget sec "Name", sget sec "Exec" with
      | some nm, some ex =>
        let try_exec := sget sec "TryExec"
        let pth := sget sec "Path"
        let term := sget sec "Terminal" == some "true"
        let exec_exists :=
          match try_exec with
          | none => true
          | some te => fs te || exists_on_path fs pathVar te
        let hide := !exec_exists || (sget sec "NoDisplay" == some "true")
            || (sget sec "Hidden" == some "true")
        some ⟨nm, filename, ex, hide, term, pth⟩
      | _, _ => none

/-- DesktopEntry::field, src/main.rs lines 84-90.  Command mode mirrors
exec.split(" ").nth(0).unwrap_or(name): the head of the single-space split,
falling back to the name (the split of Rust is never an empty iterator, so
the head is always present, including the empty first piece of an empty or
space-led string). -/
def DesktopEntry.field (e : DesktopEntry) (t : EntryType) : String :=
  match t with
  | .name => e.name
  | .filename => e.filename
  | .command => (((splitChars ' ' e.exec.data).map String.mk).head?).getD e.name

/-- ASCII lowercasing of one character, modelling what Rust to_lowercase
does on ASCII input. -/
def lowerChar (c : Char) : Char :=
  if 'A' ≤ c ∧ c ≤ 'Z' then Char.ofNat (c.toNat + 32) else c

/-- Lowercase a string character by character (name.to_lowercase() at
src/main.rs line 110, ASCII fragment). -/
def lowerStr (s : String) : String :=
  String.mk (s.data.map lowerChar)

/-- Sort key of the display sort: the lowercased name. -/
def nameKey (e : DesktopEntry) : String := lowerStr e.name

/-- Insert an element into a sorted list, before the first element whose key
is not smaller.  Together with sortEntries this is a stable sort by nameKey
and hence a faithful model of Vec::sort_by (a stable sort) with the
comparator of src/main.rs line 110. -/
def insertEntry (a : DesktopEntry) : List DesktopEntry → List DesktopEntry
  | [] => [a]
  | b :: bs => if nameKey a ≤ nameKey b then a :: b :: bs else b :: insertEntry a bs

/-- Stable sort of the entries by lowercased name (src/main.rs line 110). -/
def sortEntries : List DesktopEntry → List DesktopEntry
  | [] => []
  | a :: rest => insertEntry a (sortEntries rest)

/-- The projection loop of main, src/main.rs lines 112-122, with its
hidden_entries accumulator: a hidden entry is recorded and skipped; a
non-hidden entry is printed (field plus newline) only when some previously
recorded hidden entry carries the same name, and is silently dropped
otherwise. -/
def entriesLoop (et : EntryType) : List DesktopEntry → List DesktopEntry → String
  | [], _ => ""
  | e :: es, hidden =>
    if e.hide then entriesLoop et es (hidden ++ [e])
    else if hidden.any (fun h => h.name == e.name) then
      e.field et ++ "\n" ++ entriesLoop et es hidden
    else entriesLoop et es hidden

/-- The projected text handed to the picker or printed to standard output
(entries_string of main). -/
def entriesOutput (et : EntryType) (entries : List DesktopEntry) : String :=
  entriesLoop et entries []

/-- The environment variables the program consults, passed explicitly. -/
structure Env where
  xdgDataHome : Option String
  home : Option String
  xdgDataDirs : Option String
  pathVar : Option String

/-- Directory enumeration of read_entries, src/main.rs lines 195-215:
XDG_DATA_HOME/applications, else HOME/.local/share/applications, else a
fatal HomeNotFound error; then every entry of XDG_DATA_DIRS (or the two
fixed defaults) joined with applications, in order. -/
def read_dirs (env : Env) : Except String (List String) :=
  let data_home :=
    match env.xdgDataHome with
    | some dh => Except.ok (joinPath dh "applications")
    | none =>
      match env.home with
      | some h => Except.ok (joinPath h ".local/share/applications")
      | none => Except.error "HomeNotFound"
  match data_home with
  | Except.error e => Except.error e
  | Except.ok dh =>
    let data_dirs :=
      match env.xdgDataDirs with
      | some ds => splitPaths ds
      | none => ["/usr/local/share", "/usr/share"]
    Except.ok (dh :: data_dirs.map (fun d => joinPath d "applications"))

/-- read_entries, src/main.rs lines 195-224: the per-directory entry lists
(get_entries, abstracted as the oracle g since it performs directory and
file I/O) are appended in directory order; no deduplication happens. -/
def read_entries (env : Env) (g : String → List DesktopEntry) :
    Except String (List DesktopEntry) :=
  match read_dirs env with
  | Except.error e => Except.error e
  | Except.ok dirs => Except.ok ((dirs.map g).flatten)

/-- Whitespace as the shlex crate sees it: space, tab, newline. -/
def isShWs (c : Char) : Bool := c == ' ' || c == '\t' || c == '\n'

/-- Double quote (written by code to keep character literals plain). -/
def qD : Char := Char.ofNat 34

/-- Single quote. -/
def qS : Char := Char.ofNat 39

/-- Backquote. -/
def qB : Char := Char.ofNat 96

/-- Lexer modes of the shlex crate's word scanner: between words, inside a
comment, inside a bare word, inside single quotes, inside double quotes,
after a backslash in a word, after a backslash inside double quotes. -/
inductive ShMode
  | delim
  | comment
  | word
  | single
  | double
  | escape
  | descape
  deriving DecidableEq

/-- One-pass state machine equivalent to the shlex crate's Shlex iterator
(shlex 1.x, as invoked through shlex::split at src/main.rs lines 130, 154
and 179): cur is the word being built, acc the words emitted so far; the
result is none exactly when the input ends inside quotes or right after a
backslash (had_error), and some acc otherwise. -/
def shRun : ShMode → String → List String → List Char → Option (List String)
  | .delim, _, acc, [] => some acc
  | .comment, _, acc, [] => some acc
  | .word, cur, acc, [] => some (acc ++ [cur])
  | .single, _, _, [] => none
  | .double, _, _, [] => none
  | .escape, _, _, [] => none
  | .descape, _, _, [] => none
  | .delim, cur, acc, c :: cs =>
    if isShWs c then shRun .delim cur acc cs
    else if c == '#' then shRun .comment cur acc cs
    else if c == qD then shRun .double "" acc cs
    else if c == qS then shRun .single "" acc cs
    else if c == '\\' then shRun .escape "" acc cs
    else shRun .word (String.singleton c) acc cs
  | .comment, cur, acc, c :: cs =>
    if c == '\n' then shRun .delim cur acc cs else shRun .comment cur acc cs
  | .word, cur, acc, c :: cs =>
    if isShWs c then shRun .delim "" (acc ++ [cur]) cs
    else if c == qD then shRun .double cur acc cs
    else if c == qS then shRun .single cur acc cs
    else if c == '\\' then shRun .escape cur acc cs
    else shRun .word (cur.push c) acc cs
  | .single, cur, acc, c :: cs =>
    if c == qS then shRun .word cur acc cs else shRun .single (cur.push c) acc cs
  | .double, cur, acc, c :: cs =>
    if c == qD then shRun .word cur acc cs
    else if c == '\\' then shRun .descape cur acc cs
    else shRun .double (cur.push c) acc cs
  | .escape, cur, acc, c :: cs =>
    if c == '\n' then shRun .word cur acc cs else shRun .word (cur.push c) acc cs
  | .descape, cur, acc, c :: cs =>
    if c == '$' || c == qB || c == qD || c == '\\' then shRun .double (cur.push c) acc cs
    else if c == '\n' then shRun .double cur acc cs
    else shRun .double ((cur.push '\\').push c) acc cs

/-- shlex::split: run the scanner from the between-words mode on the whole
input. -/
def shlexSplit (s : String) : Option (List String) :=
  shRun .delim "" [] s.data

/-- Outcome of the repeated pattern let Some(mut v) = shlex::split(s) else
return Err(msg); let program = v.remove(0) (src/main.rs lines 130-136,
154-157 and 179-182): a tokenization failure is reported as msg, and
v.remove(0) on an empty vector panics. -/
inductive TokStep
  | errored (msg : String)
  | panicked
  | launched (prog : String) (args : List String)
  deriving DecidableEq

/-- Tokenize an invocation string and take the first token as the program,
with the panic of Vec::remove(0) on zero tokens made explicit. -/
def splitProgram (s : String) (errMsg : String) : TokStep :=
  match shlexSplit s with
  | none => TokStep.errored errMsg
  | some [] => TokStep.panicked
  | some (p :: args) => TokStep.launched p args

/-- Drop leading elements satisfying p. -/
def dropWhileList (p : Char → Bool) : List Char → List Char
  | [] => []
  | c :: cs => if p c then dropWhileList p cs else c :: cs

/-- Whitespace trimmed by Rust str::trim (ASCII fragment). -/
def isRustWs (c : Char) : Bool := c == ' ' || c == '\t' || c == '\n' || c == '\r'

/-- Rust str::trim (ASCII fragment): drop whitespace at both ends. -/
def trimStr (s : String) : String :=
  String.mk ((dropWhileList isRustWs ((dropWhileList isRustWs s.data.reverse).reverse)))

/-- Match lookup of main, src/main.rs lines 150-152: the first entry of the
whole (sorted) entry list whose projected field equals the trimmed picker
output. -/
def selectEntry (entries : List DesktopEntry) (et : EntryType) (out : String) :
    Option DesktopEntry :=
  entries.find? (fun e => e.field et == trimStr out)

/-- Opening brace of the placeholder (written by code, not as a literal). -/
def braceL : Char := Char.ofNat 123

/-- Closing brace of the placeholder. -/
def braceR : Char := Char.ofNat 125

/-- Rust str::contains with the two-character placeholder pattern, scanning
left to right. -/
def containsBrace : List Char → Bool
  | [] => false
  | [_] => false
  | c1 :: c2 :: cs => (c1 == braceL && c2 == braceR) || containsBrace (c2 :: cs)

/-- Rust str::replace with the two-character placeholder pattern: every
non-overlapping occurrence, found left to right, is replaced by rep. -/
def replaceBrace (rep : List Char) : List Char → List Char
  | [] => []
  | [c] => [c]
  | c1 :: c2 :: cs =>
    if c1 == braceL && c2 == braceR then rep ++ replaceBrace rep cs
    else c1 :: replaceBrace rep (c2 :: cs)

/-- terminal.contains of src/main.rs line 170 with the placeholder. -/
def containsPlaceholder (s : String) : Bool := containsBrace s.data

/-- terminal.replace of src/main.rs line 176 with the placeholder. -/
def replacePlaceholder (s rep : String) : String :=
  String.mk (replaceBrace rep.data s.data)

/-- Command-string construction of main, src/main.rs lines 167-177: start
from the entry's exec; when a terminal template is configured and the entry
requires a terminal, the template must contain the placeholder (else a
fatal error) and the placeholder is substituted by the whole exec text. -/
def buildCommandString (terminalOpt : Option String) (e : DesktopEntry) :
    Except String String :=
  match terminalOpt, e.terminal with
  | some t, true =>
    if !containsPlaceholder t then Except.error "Invalid terminal command"
    else Except.ok (replacePlaceholder t e.exec)
  | _, _ => Except.ok e.exec

/-- Launch tokenization of main, src/main.rs lines 167-182: the (possibly
terminal-wrapped) command string is tokenized with shlex; a tokenization
failure is the fatal "Invalid exec key." error. -/
def launchTokens (terminalOpt : Option String) (e : DesktopEntry) :
    Except String (List String) :=
  match buildCommandString terminalOpt e with
  | Except.error m => Except.error m
  | Except.ok cs =>
    match shlexSplit cs with
    | none => Except.error "Invalid exec key."
    | some toks => Except.ok toks

/-- Modelled from the spec (for comparison with the code): the base name of
a path, its last slash-separated component. -/
def baseName (s : String) : String :=
  (((splitChars '/' s.data).map String.mk).getLast?).getD s

/-- Modelled from the spec (claim C6's wording): the try-exec hint exists
as a literal path, or some directory of the PATH-like variable joined with
the hint's base name exists. -/
def execExistsClaim (fs : String → Bool) (pathVar : Option String) (te : String) : Bool :=
  fs te ||
    (match pathVar with
     | none => false
     | some pv => (splitPaths pv).any (fun dir => fs (joinPath dir (baseName te))))

/-- Modelled from the spec (claim C6's wording): visible = execExists (in
the claim's base-name reading) and NoDisplay not "true" and Hidden not
"true". -/
def visibleClaim (fs : String → Bool) (pathVar : Option String)
    (sec : List (String × String)) : Bool :=
  (match sget sec "TryExec" with
   | none => true
   | some te => execExistsClaim fs pathVar te)
  && !(sget sec "NoDisplay" == some "true") && !(sget sec "Hidden" == some "true")

/-- The hide flag the code actually computes, expressed over the raw
section: negation of (execExists with the hint joined verbatim, and
NoDisplay not "true", and Hidden not "true"). -/
def hideFormula (fs : String → Bool) (pathVar : Option String)
    (sec : List (String × String)) : Bool :=
  !((match sget sec "TryExec" with
     | none => true
     | some te => fs te || exists_on_path fs pathVar te)
    && !(sget sec "NoDisplay" == some "true") && !(sget sec "Hidden" == some "true"))

/-- The data_dirs list of read_entries: XDG_DATA_DIRS split on colons, or
the two fixed defaults. -/
def dataDirsOf (env : Env) : List String :=
  match env.xdgDataDirs with
  | some ds => splitPaths ds
  | none => ["/usr/local/share", "/usr/share"]

/-- The terminal template of the spec's scenario 5, xterm -e followed by
the placeholder. -/
def tplXterm : String := "xterm -e \x7b\x7d"

/-- A visible entry named a. -/
def entA : DesktopEntry := ⟨"a", "a", "a", false, false, none⟩

/-- A hidden entry that shares the name a (distinct identifier). -/
def entAHidden : DesktopEntry := ⟨"a", "ah", "a", true, false, none⟩

/-- A hidden entry named x. -/
def entHiddenX : DesktopEntry := ⟨"x", "x", "x", true, false, none⟩

/-- An entry whose exec text is empty. -/
def entEmptyExec : DesktopEntry := ⟨"myname", "f", "", false, false, none⟩

/-- A terminal-requiring entry whose exec text has two tokens. -/
def entTermMulti : DesktopEntry := ⟨"n", "f", "foo bar", false, true, none⟩

/-- An environment with XDG_DATA_HOME=/h and XDG_DATA_DIRS=/d. -/
def envC2 : Env := ⟨some "/h", none, some "/d", none⟩

/-- Entry with identifier foo contributed by the primary directory. -/
def e1C2 : DesktopEntry := ⟨"A", "foo", "a", false, false, none⟩

/-- Entry with the same identifier foo contributed by the secondary
directory. -/
def e2C2 : DesktopEntry := ⟨"B", "foo", "b", false, false, none⟩

/-- Directory-contents oracle: the primary directory holds e1C2, the
secondary holds e2C2. -/
def gC2 : String → List DesktopEntry := fun d =>
  if d == "/h/applications" then [e1C2] else if d == "/d/applications" then [e2C2] else []

/-- A decoded section whose Name value is present but empty. -/
def secEmptyName : List (String × String) :=
  [("Type", "Application"), ("Name", ""), ("Exec", "x")]

/-- A filesystem on which exactly /usr/bin/foo exists. -/
def fsC6 : String → Bool := fun s => s == "/usr/bin/foo"

/-- A decoded section declaring TryExec=/x/foo. -/
def secC6 : List (String × String) :=
  [("Type", "Application"), ("Name", "n"), ("Exec", "e"), ("TryExec", "/x/foo")]

/-- Accumulator lemma for the shlex scanner: words already emitted are a
prefix of the final result, whatever the rest of the input does. -/
theorem shRun_append (input : List Char) :
    ∀ (m : ShMode) (cur : String) (acc : List String),
      shRun m cur acc input = (shRun m cur [] input).map (fun ws => acc ++ ws) := by
  induction input with
  | nil => intro m cur acc; cases m <;> simp [shRun]
  | cons c cs ih =>
    intro m cur acc
    cases m <;> simp only [shRun, List.nil_append] <;>
      (repeat' split) <;>
      first
        | exact ih _ _ _
        | (conv_lhs => rw [ih]
           conv_rhs => rw [ih]
           simp [Option.map_map, Function.comp_def, List.append_assoc])

/-- Scanning the nine concrete characters xterm -e (with trailing space)
emits the two words xterm and -e and returns to the between-words mode. -/
theorem shRun_xterm_head (s : List Char) :
    shRun .delim "" [] (("xterm -e ").data ++ s) = shRun .delim "" ["xterm", "-e"] s := rfl

/-- Tokenizing xterm -e followed by any string s yields xterm, -e and then
the tokens of s, whenever s itself tokenizes. -/
theorem shlexSplit_xterm (s : String) (toks : List String)
    (h : shlexSplit s = some toks) :
    shlexSplit ("xterm -e " ++ s) = some ("xterm" :: "-e" :: toks) := by
  unfold shlexSplit at h ⊢
  rw [String.data_append, shRun_xterm_head, shRun_append, h]
  rfl

/-- Substituting the placeholder of the xterm template prepends xterm -e
to the replacement text. -/
theorem replacePlaceholder_xterm (rep : String) :
    replacePlaceholder tplXterm rep = "xterm -e " ++ rep := by
  obtain ⟨l⟩ := rep
  show String.mk _ = _
  simp [replacePlaceholder, tplXterm, replaceBrace, braceL, braceR]
  rfl

/-- Membership in an insertion step. -/
theorem mem_insertEntry {x a : DesktopEntry} {l : List DesktopEntry} :
    x ∈ insertEntry a l ↔ x = a ∨ x ∈ l := by
  induction l with
  | nil => simp [insertEntry]
  | cons b bs ih =>
    simp only [insertEntry]
    split
    · simp [List.mem_cons]
    · simp [List.mem_cons, ih]
      tauto

/-- Insertion preserves sortedness by the lowercased-name key. -/
theorem pairwise_insertEntry {a : DesktopEntry} {l : List DesktopEntry}
    (h : l.Pairwise (fun x y => nameKey x ≤ nameKey y)) :
    (insertEntry a l).Pairwise (fun x y => nameKey x ≤ nameKey y) := by
  induction l with
  | nil => simp [insertEntry]
  | cons b bs ih =>
    rw [List.pairwise_cons] at h
    obtain ⟨hb, hbs⟩ := h
    by_cases hle : nameKey a ≤ nameKey b
    · rw [insertEntry, if_pos hle, List.pairwise_cons]
      refine ⟨?_, List.pairwise_cons.mpr ⟨hb, hbs⟩⟩
      intro y hy
      rcases List.mem_cons.mp hy with rfl | hy2
      · exact hle
      · exact le_trans hle (hb y hy2)
    · rw [insertEntry, if_neg hle, List.pairwise_cons]
      refine ⟨?_, ih hbs⟩
      intro y hy
      rcases mem_insertEntry.mp hy with rfl | hy2
      · exact le_of_not_le hle
      · exact hb y hy2

/-- Stability of one insertion step: restricted to any fixed key, inserting
an element places it in front exactly when it carries that key, because the
elements it passes over have strictly smaller keys. -/
theorem filter_insertEntry (k : String) (a : DesktopEntry) (l : List DesktopEntry) :
    (insertEntry a l).filter (fun e => nameKey e == k) =
      if nameKey a == k then a :: l.filter (fun e => nameKey e == k)
      else l.filter (fun e => nameKey e == k) := by
  induction l with
  | nil =>
    cases hk : (nameKey a == k) <;> simp [insertEntry, List.filter, hk]
  | cons b bs ih =>
    rw [insertEntry]
    by_cases hle : nameKey a ≤ nameKey b
    · rw [if_pos hle]
      cases hk : (nameKey a == k) <;> simp [List.filter, hk]
    · rw [if_neg hle]
      cases hbk : (nameKey b == k)
      · simp [List.filter, hbk, ih]
      · have hak : (nameKey a == k) = false := by
          apply beq_eq_false_iff_ne.mpr
          intro hak
          exact hle (by rw [hak, beq_iff_eq.mp hbk])
        simp [List.filter, hbk, ih, hak]

/-- C1: the claim (an entry appears in the projected output iff its visible
flag is true) fails on the code.  The loop of src/main.rs lines 112-122
prints a non-hidden entry only when an earlier hidden entry carries the
same name: a lone visible entry produces empty output, while a visible
entry preceded by a hidden namesake is printed. -/
theorem c1_visible_entry_omitted :
    entA.hide = false ∧ entriesOutput EntryType.name [entA] = ""
      ∧ entriesOutput EntryType.name [entAHidden, entA] = "a\n" :=
  ⟨rfl, rfl, rfl⟩

/-- C2 (amended): read_entries performs no per-identifier merging at all:
it returns the concatenation of the per-directory entry lists in directory
order, and every occurrence of an identifier survives (the count of entries
carrying a given identifier is the sum of the per-directory counts). -/
theorem c2_entries_concatenated (env : Env) (g : String → List DesktopEntry)
    (dirs : List String) (h : read_dirs env = Except.ok dirs) (i : String) :
    read_entries env g = Except.ok ((dirs.map g).flatten)
      ∧ ((dirs.map g).flatten).countP (fun e => e.filename == i)
          = (dirs.map (fun d => (g d).countP (fun e => e.filename == i))).sum := by
  constructor
  · simp [read_entries, h]
  · simp [List.countP_flatten, List.map_map, Function.comp_def]

/-- C2 witness: the amended statement applied to the concrete two-directory
environment. -/
theorem c2_witness :
    read_entries envC2 gC2 = Except.ok ((["/h/applications", "/d/applications"].map gC2).flatten)
      ∧ ((["/h/applications", "/d/applications"].map gC2).flatten).countP
            (fun e => e.filename == "foo")
          = (["/h/applications", "/d/applications"].map
              (fun d => (gC2 d).countP (fun e => e.filename == "foo"))).sum :=
  c2_entries_concatenated envC2 gC2 ["/h/applications", "/d/applications"] rfl "foo"

/-- C2 counterexample: two directories both contribute an entry with the
identifier foo and both entries survive, refuting the claim that exactly
one entry per identifier survives merging. -/
theorem c2_counterexample :
    read_entries envC2 gC2 = Except.ok [e1C2, e2C2]
      ∧ e1C2.filename = e2C2.filename ∧ e1C2 ≠ e2C2 :=
  ⟨rfl, rfl, by decide⟩

/-- C3 (amended): the match lookup searches the whole resolved entry list,
with no visibility restriction: a matched entry belongs to the list and its
projected field equals the trimmed choice, and nothing more is guaranteed. -/
theorem c3_match_searches_all (entries : List DesktopEntry) (et : EntryType)
    (out : String) (e : DesktopEntry) (h : selectEntry entries et out = some e) :
    e ∈ entries ∧ e.field et = trimStr out := by
  refine ⟨List.mem_of_find?_eq_some h, ?_⟩
  have hp := List.find?_some h
  simpa using hp

/-- C3 witness: the amended statement applied to a concrete singleton
list. -/
theorem c3_witness : entA ∈ [entA] ∧ entA.field EntryType.name = trimStr "a" :=
  c3_match_searches_all [entA] EntryType.name "a" entA rfl

/-- C3 counterexample: a hidden entry is returned by the match lookup,
refuting the claim that an entry with visible false is never the matched
entry. -/
theorem c3_counterexample :
    entHiddenX.hide = true ∧ selectEntry [entHiddenX] EntryType.name "x" = some entHiddenX :=
  ⟨rfl, rfl⟩

/-- C4 (amended): with the template xterm -e followed by the placeholder
and a terminal-requiring entry, the placeholder is substituted by the whole
exec text before tokenization, so the launch tokens are xterm, -e, and then
the shell-style tokens of the exec text (not the exec text as one
argument); a template without the placeholder is a fatal configuration
error and nothing is spawned. -/
theorem c4_terminal_wrapping (e : DesktopEntry) (toks : List String)
    (hterm : e.terminal = true) (htoks : shlexSplit e.exec = some toks) :
    launchTokens (some tplXterm) e = Except.ok ("xterm" :: "-e" :: toks)
      ∧ ∀ t : String, containsPlaceholder t = false →
          launchTokens (some t) e = Except.error "Invalid terminal command" := by
  constructor
  · have hc : containsPlaceholder tplXterm = true := rfl
    simp [launchTokens, buildCommandString, hterm, hc, replacePlaceholder_xterm,
          shlexSplit_xterm e.exec toks htoks]
  · intro t ht
    simp [launchTokens, buildCommandString, hterm, ht]

/-- C4 witness: the amended statement applied to the concrete two-token
entry, covering both the substitution branch and the missing-placeholder
branch. -/
theorem c4_witness :
    launchTokens (some tplXterm) entTermMulti = Except.ok ["xterm", "-e", "foo", "bar"]
      ∧ launchTokens (some "xterm") entTermMulti = Except.error "Invalid terminal command" := by
  have h := c4_terminal_wrapping entTermMulti ["foo", "bar"] rfl rfl
  exact ⟨h.1, h.2 "xterm" rfl⟩

/-- C4 counterexample: for an entry whose exec text is foo bar the spawned
argument vector is xterm -e foo bar (four tokens), not xterm -e with the
original command line as one argument, refuting the claim's in-particular
clause. -/
theorem c4_counterexample :
    launchTokens (some tplXterm) entTermMulti = Except.ok ["xterm", "-e", "foo", "bar"]
      ∧ ["xterm", "-e", "foo", "bar"] ≠ ["xterm", "-e", "foo bar"] :=
  ⟨rfl, by decide⟩

/-- C5 (amended): an entry is produced iff the declared type equals
Application and the name and exec fields are both present; emptiness of
their values is not checked. -/
theorem c5_mandatory_fields (fs : String → Bool) (pv : Option String) (fn : String)
    (sec : List (String × String)) :
    (from_ini fs pv fn (some sec)).isSome =
        ((sget sec "Type" == some "Application") && (sget sec "Name").isSome
          && (sget sec "Exec").isSome)
      ∧ from_ini fs pv fn none = none := by
  constructor
  · by_cases ht : sget sec "Type" = some "Application"
    · cases hn : sget sec "Name" <;> cases he : sget sec "Exec" <;>
        simp [from_ini, ht, hn, he]
    · simp [from_ini, ht]
  · rfl

/-- C5 counterexample: a candidate whose Name value is the empty string is
not discarded, refuting the claim that an entry is produced only when the
name field is non-empty. -/
theorem c5_counterexample :
    sget secEmptyName "Name" = some ""
      ∧ from_ini (fun _ => true) none "app" (some secEmptyName)
          = some ⟨"", "app", "x", false, false, none⟩ :=
  ⟨rfl, rfl⟩

/-- C6 (amended): for every produced entry, the hide flag equals the
negation of (execExists and NoDisplay not true and Hidden not true), where
execExists tests the try-exec hint literally and then joined verbatim (not
by base name) onto each directory of the PATH-like variable, with Rust
path-join semantics. -/
theorem c6_visibility_formula (fs : String → Bool) (pv : Option String) (fn : String)
    (sec : List (String × String)) (e : DesktopEntry)
    (h : from_ini fs pv fn (some sec) = some e) :
    e.hide = hideFormula fs pv sec := by
  by_cases ht : sget sec "Type" = some "Application"
  · cases hn : sget sec "Name" <;> cases he : sget sec "Exec" <;>
      simp [from_ini, ht, hn, he] at h
    subst h
    unfold hideFormula
    cases hx : sget sec "TryExec" <;> simp [hx]
  · simp [from_ini, ht] at h

/-- C6 witness: the amended statement applied to a concrete section. -/
theorem c6_witness :
    (⟨"", "app", "x", false, false, none⟩ : DesktopEntry).hide
      = hideFormula (fun _ => true) none secEmptyName :=
  c6_visibility_formula (fun _ => true) none "app" secEmptyName _ rfl

/-- C6 counterexample: with TryExec=/x/foo, a PATH of /usr/bin and a
filesystem on which only /usr/bin/foo exists, the code hides the entry
(joining /usr/bin with the whole hint yields the absolute /x/foo, which
does not exist), while the claim's base-name formula declares it visible,
refuting the claim. -/
theorem c6_counterexample :
    from_ini fsC6 (some "/usr/bin") "f" (some secC6)
        = some ⟨"n", "f", "e", true, false, none⟩
      ∧ visibleClaim fsC6 (some "/usr/bin") secC6 = true :=
  ⟨rfl, rfl⟩

/-- C7: the claim (command-mode projection falls back to the display name
when the command line is empty) fails on the code: Rust's split over a
one-character pattern always yields a first piece, so an empty exec
projects to the empty string and the unwrap_or fallback of src/main.rs
line 88 is unreachable. -/
theorem c7_empty_exec_projection :
    entEmptyExec.name = "myname" ∧ entEmptyExec.exec = ""
      ∧ entEmptyExec.field EntryType.command = "" :=
  ⟨rfl, rfl, rfl⟩

/-- C8: the directory enumeration of read_entries returns the primary
directory (XDG_DATA_HOME joined with applications, else HOME joined with
.local/share/applications, else the fatal HomeNotFound error) followed by
every entry of XDG_DATA_DIRS (or the two fixed defaults) joined with
applications, in listed order. -/
theorem c8_directory_enumeration (env : Env) :
    read_dirs env =
      match env.xdgDataHome, env.home with
      | some u, _ =>
        Except.ok (joinPath u "applications"
          :: (dataDirsOf env).map (fun d => joinPath d "applications"))
      | none, some hm =>
        Except.ok (joinPath hm ".local/share/applications"
          :: (dataDirsOf env).map (fun d => joinPath d "applications"))
      | none, none => Except.error "HomeNotFound" := by
  obtain ⟨dh, hm, dd, pv⟩ := env
  cases dh <;> cases hm <;> simp [read_dirs, dataDirsOf]

/-- C9: the display sort is sorted by the lowercased name under the string
order, and it is stable: restricted to any fixed lowercased-name key the
output lists exactly the input entries of that key in their input order
(so equal-key entries such as bash and Bash stay in input order, and by
sortedness they are adjacent). -/
theorem c9_sort_stable_case_insensitive (es : List DesktopEntry) :
    ((sortEntries es).Pairwise (fun a b => nameKey a ≤ nameKey b))
      ∧ ∀ k : String, (sortEntries es).filter (fun e => nameKey e == k)
          = es.filter (fun e => nameKey e == k) := by
  constructor
  · induction es with
    | nil => simp [sortEntries]
    | cons a rest ih => exact pairwise_insertEntry ih
  · intro k
    induction es with
    | nil => simp [sortEntries]
    | cons a rest ih =>
      rw [sortEntries, filter_insertEntry, List.filter_cons]
      by_cases hk : (nameKey a == k) = true <;> simp [hk, ih]

/-- C10: the claim (a successful tokenization on the three first-token
paths always yields a non-empty token list, so taking the first token never
fails) fails on the code: shlex::split of the empty string succeeds with
zero tokens, and Vec::remove(0) then panics. -/
theorem c10_empty_tokenization_panics :
    shlexSplit "" = some [] ∧ splitProgram "" "Invalid dmenu command." = TokStep.panicked :=
  ⟨rfl, rfl⟩

end DmenuDesktop
